import Mathlib

/-!
Verification of the kerosene playbook execution engine.

Shallow embedding of the core of the engine: the YAML value model, the
task registry, the task/handler parser, the command-preparation layer,
the execution context, the handler flush protocol, and the built-in
modules that the claims touch (shell, set_fact, meta, copy file
resolution). Each definition mirrors the corresponding Rust item in
the source tree; Rust panics (Option::unwrap on None) are modelled by
a dedicated Outcome.panic result, and fallible paths return
Outcome.error with the message the source constructs.
-/

namespace Kerosene

/-- Model of serde_yaml Value, restricted to the constructors the
engine inspects. Mapping keys are modelled as strings, matching every
use in the source. -/
inductive Value where
  | vNull
  | vBool (b : Bool)
  | vStr (s : String)
  | vInt (n : Int)
  | vSeq (items : List Value)
  | vMap (entries : List (String × Value))

/-- Result of running engine code: normal value, recoverable error
carrying a message, or a Rust panic (Option::unwrap on None and
similar aborts). -/
inductive Outcome (A : Type) where
  | ok (a : A)
  | error (msg : String)
  | panic

def Outcome.map {A B : Type} (f : A → B) : Outcome A → Outcome B
  | .ok a => .ok (f a)
  | .error e => .error e
  | .panic => .panic

/-- TaskId from src/task/mod.rs. -/
inductive TaskId where
  | Task (id : String)
  | Unknown (id : String)
  | Alias (id : String) (al : String)
deriving DecidableEq, Repr

def TaskId.name : TaskId → String
  | .Task id => id
  | .Unknown id => id
  | .Alias id _ => id

/-- The static module registry: every inventory submission in
src/task, as (fqdn, aliases). -/
def registeredModules : List (String × List String) :=
  [ ("ansible.builtin.copy", ["copy"]),
    ("kerosene.builtin.curl", ["curl"]),
    ("ansible.builtin.import_tasks", ["import_tasks"]),
    ("ansible.builtin.meta", ["meta"]),
    ("ansible.builtin.set_fact", ["set_fact"]),
    ("ansible.builtin.shell", ["shell"]),
    ("ansible.builtin.systemd_service",
      ["systemd_service", "ansible.builtin.systemd", "systemd"]),
    ("ansible.builtin.template", ["template"]) ]

/-- known_tasks() from src/main.rs: the mapping from every recognised
key (fqdn and each alias) to its TaskId. -/
def knownTasksList : List (String × TaskId) :=
  registeredModules.foldr
    (fun m acc =>
      (m.1, TaskId.Task m.1) :: m.2.map (fun a => (a, TaskId.Alias m.1 a)) ++ acc)
    []

/-- Generic association-list lookup, modelling HashMap::get. -/
def alookup {A : Type} : List (String × A) → String → Option A
  | [], _ => none
  | kv :: rest, k => if kv.1 = k then some kv.2 else alookup rest k

def knownTasksLookup (key : String) : Option TaskId :=
  alookup knownTasksList key

/-- CommandTarget from src/command.rs. -/
inductive CommandTarget where
  | Local (elevate : Option (List String)) (dry : Bool)
  | Remote (hostname : String) (user : Option String)
      (elevate : Option (List String)) (dry : Bool)
deriving DecidableEq, Repr

def CommandTarget.dry : CommandTarget → Bool
  | .Local _ d => d
  | .Remote _ _ _ d => d

/-- Replace the dry flag of a target, leaving every other field. -/
def CommandTarget.withDry : CommandTarget → Bool → CommandTarget
  | .Local e _, d => .Local e d
  | .Remote h u e _, d => .Remote h u e d

/-- PreparedCommand from src/command.rs (the argv-relevant fields). -/
structure PreparedCommand where
  target : CommandTarget
  command : String
  args : List String
  working_directory : Option String
  read_only : Bool
deriving DecidableEq, Repr

/-- str::replace of a single backslash by two, on character lists. -/
def bsEscapeL : List Char → List Char
  | [] => []
  | c :: rest => if c = '\\' then c :: c :: bsEscapeL rest else c :: bsEscapeL rest

/-- The backslash doubling applied in the Remote arm of
prepare_command. -/
def bsEscape (s : String) : String :=
  String.mk (bsEscapeL s.toList)

/-- Checks that every backslash in the list is immediately followed by
a second one consumed with it: exactly the strings in the image of
bsEscape over backslash structure. -/
def bsDoubled : List Char → Bool
  | [] => true
  | c :: rest =>
    if c = '\\' then
      match rest with
      | [] => false
      | c2 :: rest2 => if c2 = '\\' then bsDoubled rest2 else false
    else bsDoubled rest

/-- prepare_command from src/command.rs. Returns none where the
source would panic (elevate.first().unwrap() on an empty elevation
vector). -/
def prepare_command (pc : PreparedCommand) : Option (String × List String) :=
  if ¬ pc.read_only ∧ pc.target.dry = true then
    some ("true", [])
  else
    match pc.target with
    | .Local none _ => some (pc.command, pc.args)
    | .Local (some elevate) _ =>
      match elevate with
      | [] => none
      | e :: rest => some (e, rest ++ pc.command :: pc.args)
    | .Remote hostname user elevate _ =>
      let host :=
        match user with
        | some u => u ++ "@" ++ hostname
        | none => hostname
      let elevateArgs :=
        match elevate with
        | some e => e
        | none => []
      let chdirArgs :=
        match pc.working_directory with
        | some chdir => ["env", "--chdir", chdir]
        | none => []
      some ("ssh",
        host :: elevateArgs ++ chdirArgs
          ++ bsEscape pc.command :: pc.args.map bsEscape)

/-- run_command_opts from src/task/mod.rs: install the sudo elevation
vector when do_become_user is set, then split the command list and
prepare it. none models the panic on an empty command list
(command.first().unwrap()). -/
def applyBecome (do_become_user : Option String) (t : CommandTarget) : CommandTarget :=
  match do_become_user with
  | none => t
  | some u =>
    match t with
    | .Local _ d => .Local (some ["sudo", "--user=" ++ u, "--"]) d
    | .Remote h usr _ d => .Remote h usr (some ["sudo", "--user=" ++ u, "--"]) d

def run_command_argv (command_target : CommandTarget) (do_become_user : Option String)
    (working_directory : Option String) (command : List String) :
    Option (String × List String) :=
  let target := applyBecome do_become_user command_target
  match command with
  | [] => none
  | first :: rest =>
    prepare_command
      { target := target, command := first, args := rest,
        working_directory := working_directory, read_only := false }

/-- process_tasks from src/main.rs, the do_become_user assignment:
Some(task.become_user.unwrap_or("root")) when become is set. -/
def becomeUserFor (bcm : Bool) (become_user : Option String) : Option String :=
  if bcm then some (become_user.getD "root") else none

/-- The shell module argv from src/task/shell.rs:
[executable or /bin/sh, -c, cmd]. -/
def shellArgv (cmd : String) (executable : Option String) : List String :=
  [executable.getD "/bin/sh", "-c", cmd]

/-! ### Facts (HashMap String Value, modelled as an association list) -/

/-- HashMap::insert: replace the value in place when the key exists,
append otherwise. -/
def insertF : List (String × Value) → String → Value → List (String × Value)
  | [], k, v => [(k, v)]
  | kv :: rest, k, v =>
    if kv.1 = k then (k, v) :: rest else kv :: insertF rest k v

/-- HashMap::entry(key).or_insert(value): insert only when absent. -/
def entryOrInsert (m : List (String × Value)) (k : String) (v : Value) :
    List (String × Value) :=
  match alookup m k with
  | some _ => m
  | none => insertF m k v

/-- process_role in src/main.rs: role defaults are folded into facts
with entry().or_insert(). -/
def loadRoleDefaults (facts : List (String × Value)) (defaults : List (String × Value)) :
    List (String × Value) :=
  defaults.foldl (fun acc kv => entryOrInsert acc kv.1 kv.2) facts

/-- SetFactTask::run_structured in src/task/set_fact.rs: every pair is
stored with HashMap::insert, overwriting existing entries. -/
def set_fact (facts : List (String × Value)) (pairs : List (String × Value)) :
    List (String × Value) :=
  pairs.foldl (fun acc kv => insertF acc kv.1 kv.2) facts

/-- The value the last occurrence of a key in a pair list would leave
behind after a sequence of inserts. -/
def lastVal : List (String × Value) → String → Option Value
  | [], _ => none
  | kv :: rest, k =>
    match lastVal rest k with
    | some v => some v
    | none => if kv.1 = k then some kv.2 else none

/-! ### Task and handler descriptions, and the parser -/

/-- TaskDescription from src/serde/task.rs. -/
structure TaskDescription where
  name : Option String
  task_id : TaskId
  args : Value
  become : Bool
  become_user : Option String
  delegate_to : Option String
  when : List String
  notify : List String
  register : Option String
  vars : Option (List (String × Value))

/-- HandlerDescription from src/serde/task.rs. -/
structure HandlerDescription where
  name : Option String
  task_id : TaskId
  args : Value
  become : Bool
  become_user : Option String
  when : List String
  listen : Option String
  vars : Option (List (String × Value))

inductive TaskOrHandler where
  | task (t : TaskDescription)
  | handler (h : HandlerDescription)

/-- Value::as_str. -/
def Value.asStr : Value → Option String
  | .vStr s => some s
  | _ => none

/-- Value::as_bool. -/
def Value.asBool : Value → Option Bool
  | .vBool b => some b
  | _ => none

/-- serde_yaml::from_value for Vec of String: a sequence whose items
are all strings. -/
def Value.asStrList : Value → Option (List String)
  | .vSeq items =>
    items.foldr
      (fun v acc =>
        match v.asStr, acc with
        | some s, some rest => some (s :: rest)
        | _, _ => none)
      (some [])
  | _ => none

/-- The accumulator walked through TaskVisitor::visit_map. -/
structure VisitState where
  name : Option String
  task_id : Option TaskId
  args : Option Value
  become : Option Bool
  become_user : Option String
  delegate_to : Option String
  when : Option (List String)
  notify : Option (List String)
  register : Option String
  vars : Option (List (String × Value))
  listen : Option String

def VisitState.init : VisitState :=
  ⟨none, none, none, none, none, none, none, none, none, none, none⟩

/-- One iteration of the while-let over map entries in
TaskVisitor::visit_map. -/
def visitEntry (expectHandler : Bool) (st : VisitState) (key : String) (value : Value) :
    Outcome VisitState :=
  if key = "name" then
    match st.name with
    | some _ => .error "duplicate name"
    | none =>
      match value.asStr with
      | some s => .ok { st with name := some s }
      | none => .error "name is not a string"
  else if key = "delegate_to" then
    match st.delegate_to with
    | some _ => .error "duplicate delegate_to"
    | none =>
      match value.asStr with
      | some s => .ok { st with delegate_to := some s }
      | none => .error "delegate_to is not a string"
  else if key = "become" then
    match st.become with
    | some _ => .error "duplicate become"
    | none =>
      match value.asBool with
      | some b => .ok { st with become := some b }
      | none => .error "name is not a boolean"
  else if key = "become_user" then
    match st.become_user with
    | some _ => .error "duplicate become_user"
    | none =>
      match value.asStr with
      | some s => .ok { st with become_user := some s }
      | none => .error "become_user is not a string"
  else if key = "when" then
    match st.when with
    | some _ => .error "duplicate when"
    | none =>
      match value.asStr with
      | some expr => .ok { st with when := some [expr] }
      | none =>
        match value with
        | .vSeq items =>
          match Value.asStrList (.vSeq items) with
          | some l => .ok { st with when := some l }
          | none => .error "expected when to be a list of strings"
        | _ => .error "expected when to be a list of strings, or a string"
  else if expectHandler = true ∧ key = "listen" then
    match st.listen with
    | some _ => .error "duplicate listen"
    | none =>
      match value.asStr with
      | some s => .ok { st with listen := some s }
      | none => .error "listen is not a string"
  else if expectHandler = false ∧ key = "notify" then
    match st.notify with
    | some _ => .error "duplicate notify"
    | none =>
      match value.asStrList with
      | some l => .ok { st with notify := some l }
      | none => .error "expected notify to be a list of strings"
  else if key = "register" then
    match st.register with
    | some _ => .error "duplicate register"
    | none =>
      match value.asStr with
      | some s => .ok { st with register := some s }
      | none => .error "register is not a string"
  else if key = "vars" then
    match st.vars with
    | some _ => .error "duplicate vars"
    | none =>
      match value with
      | .vMap entries => .ok { st with vars := some entries }
      | _ => .error "vars is not a mapping"
  else
    match knownTasksLookup key with
    | some tid =>
      match st.task_id with
      | some _ => .error "duplicate task details"
      | none => .ok { st with task_id := some tid, args := some value }
    | none =>
      -- unhandled task key: logged at debug level and skipped
      .ok st

def visitEntries (expectHandler : Bool) :
    VisitState → List (String × Value) → Outcome VisitState
  | st, [] => .ok st
  | st, kv :: rest =>
    match visitEntry expectHandler st kv.1 kv.2 with
    | .ok st2 => visitEntries expectHandler st2 rest
    | .error e => .error e
    | .panic => .panic

/-- The construction at the end of visit_map. task_id.unwrap() and
args.unwrap() panic when no module key was recognised. -/
def visitFinish (expectHandler : Bool) (st : VisitState) : Outcome TaskOrHandler :=
  if expectHandler = true then
    if st.name = none ∧ st.listen = none then
      .error "handler is expected to have at least name or listen"
    else
      match st.task_id, st.args with
      | some tid, some args =>
        .ok (.handler
          { name := st.name, task_id := tid, args := args,
            become := st.become.getD false, become_user := st.become_user,
            when := st.when.getD [], listen := st.listen, vars := st.vars })
      | _, _ => .panic
  else
    match st.task_id, st.args with
    | some tid, some args =>
      .ok (.task
        { name := st.name, task_id := tid, args := args,
          become := st.become.getD false, become_user := st.become_user,
          delegate_to := st.delegate_to, when := st.when.getD [],
          notify := st.notify.getD [], register := st.register, vars := st.vars })
    | _, _ => .panic

/-- TaskVisitor::visit_map from src/serde/task.rs, on the entry list
of a YAML mapping. expectHandler selects the handler variant. -/
def visit_map (expectHandler : Bool) (entries : List (String × Value)) :
    Outcome TaskOrHandler :=
  match visitEntries expectHandler VisitState.init entries with
  | .ok st => visitFinish expectHandler st
  | .error e => .error e
  | .panic => .panic

/-! ### Execution context and the orchestrator -/

/-- TaskContextInner from src/task/mod.rs. The VecDeque fields are
lists with the front at the head; HashMaps are association lists. -/
structure Ctx where
  play_basedir : String
  resource_dirs : List String
  facts : List (String × Value)
  command_target : CommandTarget
  do_become_user : Option String
  pending_handlers : List String
  known_handlers : List (String × HandlerDescription)

/-- The behaviour of a registered module: canonical fqdn and raw args
to a state transformer on the shared context. This stands for the
run field of KeroseneTaskInfo; the concrete modules (shell, copy, ...)
only spawn subprocesses through run_command_opts, which the claims
about orchestration treat as opaque. -/
def ModuleRun : Type :=
  String → Value → Ctx → Outcome Ctx

/-- The error constructed in run_handlers when a pending name is
missing from known_handlers. The source writes the name between
single quotes; the quotes are elided here. -/
def handlerNotDeclaredMsg (name : String) : String :=
  "Handler " ++ name ++ " is not declared"

/-- The while-let loop of run_handlers in src/main.rs over the cloned
pending queue. Each iteration looks the name up in the current
context, resolves the module by the canonical task id
(get_task(...).unwrap(): panic when unregistered) and dispatches it
with the captured args. The returned trace lists the dispatched
handler names in order. -/
def runHandlersLoop (runM : ModuleRun) :
    List String → Ctx → List String → Outcome (Ctx × List String)
  | [], ctx, trace => .ok (ctx, trace.reverse)
  | hname :: rest, ctx, trace =>
    match alookup ctx.known_handlers hname with
    | none => .error (handlerNotDeclaredMsg hname)
    | some handler =>
      match knownTasksLookup handler.task_id.name with
      | none => .panic
      | some tid =>
        match runM tid.name handler.args ctx with
        | .ok ctx2 => runHandlersLoop runM rest ctx2 (hname :: trace)
        | .error e => .error e
        | .panic => .panic

/-- run_handlers from src/main.rs: snapshot pending_handlers, run the
loop, then clear the queue on the shared context. -/
def run_handlers (runM : ModuleRun) (ctx : Ctx) : Outcome (Ctx × List String) :=
  let pending := ctx.pending_handlers
  if pending.isEmpty then .ok (ctx, [])
  else
    match runHandlersLoop runM pending ctx [] with
    | .ok (ctx2, trace) => .ok ({ ctx2 with pending_handlers := [] }, trace)
    | .error e => .error e
    | .panic => .panic

/-- The per-task body of process_tasks in src/main.rs:
get_task(task_id).unwrap(), the do_become_user assignment, the module
dispatch, then the notify pushes onto pending_handlers. -/
def processTask (runM : ModuleRun) (ctx : Ctx) (t : TaskDescription) : Outcome Ctx :=
  match knownTasksLookup t.task_id.name with
  | none => .panic
  | some tid =>
    let ctx1 := { ctx with do_become_user := becomeUserFor t.become t.become_user }
    match runM tid.name t.args ctx1 with
    | .ok ctx2 => .ok { ctx2 with pending_handlers := ctx2.pending_handlers ++ t.notify }
    | .error e => .error e
    | .panic => .panic

/-! ### The meta module -/

/-- MetaTaskAction from src/task/meta.rs. The serde untagged Unknown
variant captures every value that is not one of the nine snake_case
unit-variant names. -/
inductive MetaTaskAction where
  | ClearFacts
  | ClearHostErrors
  | EndBatch
  | EndHost
  | EndPlay
  | FlushHandlers
  | Noop
  | RefreshInventory
  | ResetConnection
  | Unknown (v : Value)

/-- The nine snake_case unit-variant names of MetaTaskAction, as
produced by the serde rename_all attribute. -/
def metaActionTable : List (String × MetaTaskAction) :=
  [ ("clear_facts", .ClearFacts),
    ("clear_host_errors", .ClearHostErrors),
    ("end_batch", .EndBatch),
    ("end_host", .EndHost),
    ("end_play", .EndPlay),
    ("flush_handlers", .FlushHandlers),
    ("noop", .Noop),
    ("refresh_inventory", .RefreshInventory),
    ("reset_connection", .ResetConnection) ]

/-- Deserialisation of MetaTask: a string equal to a unit-variant
name selects it; anything else falls into the untagged Unknown. -/
def parseMetaAction (v : Value) : MetaTaskAction :=
  match v with
  | .vStr s =>
    match alookup metaActionTable s with
    | some a => a
    | none => .Unknown (.vStr s)
  | other => .Unknown other

/-- The error text of the Unknown arm in MetaTask::run_structured.
The source appends the debug rendering of the value. -/
def metaUnknownMsg : String :=
  "unknown meta action"

/-- MetaTask::run_structured from src/task/meta.rs. The Bool records
whether the unhandled-action warning was logged. CommandTarget::reset
is a stub in the source, so ResetConnection succeeds without touching
the context. -/
def metaRunStructured (runM : ModuleRun) (action : MetaTaskAction) (ctx : Ctx) :
    Outcome (Ctx × Bool) :=
  match action with
  | .FlushHandlers =>
    match run_handlers runM ctx with
    | .ok (ctx2, _) => .ok (ctx2, false)
    | .error e => .error e
    | .panic => .panic
  | .Noop => .ok (ctx, false)
  | .ResetConnection => .ok (ctx, false)
  | .Unknown _ => .error metaUnknownMsg
  | _ => .ok (ctx, true)

/-- The nine strings that deserialise to a unit variant of
MetaTaskAction. -/
def recognisedMetaNames : List String :=
  metaActionTable.map Prod.fst

/-- The recognised actions whose arm in run_structured is the
catch-all warn-and-continue. -/
def warnOnlyMetaNames : List String :=
  ["clear_facts", "clear_host_errors", "end_batch", "end_host", "end_play",
   "refresh_inventory"]

/-! ### The copy module file resolver -/

/-- PathBuf::is_relative on unix: the path does not start with a
slash. -/
def isRelativePath (p : String) : Bool :=
  match p.toList with
  | [] => true
  | c :: _ => !(c == '/')

/-- PathBuf::join for the relative components used by the resolver. -/
def pathJoin (p q : String) : String :=
  p ++ "/" ++ q

/-- The candidate deque built by resolve_local_file in
src/task/copy.rs, front at the head; each push_front is a cons. -/
def possiblePaths (play_basedir : String) (resource_dirs : List String)
    (subdirectory name : String) : List String :=
  if isRelativePath name then
    let l := [pathJoin play_basedir (pathJoin subdirectory name)]
    let l := pathJoin play_basedir name :: l
    resource_dirs.reverse.foldl
      (fun acc dir =>
        pathJoin (pathJoin dir subdirectory) name :: pathJoin dir name :: acc)
      l
  else [name]

/-- resolve_local_file from src/task/copy.rs: first existing
candidate wins; fsExists stands for std::fs::metadata(...).is_ok().
The source writes the name between single quotes in the error; the
quotes are elided here. -/
def resolve_local_file (fsExists : String → Bool) (ctx : Ctx)
    (subdirectory name : String) : Outcome String :=
  match (possiblePaths ctx.play_basedir ctx.resource_dirs subdirectory name).find?
      fsExists with
  | some path => .ok path
  | none => .error ("could not find file specified as " ++ name)

/-! ## Command-layer theorems -/

theorem bsDoubled_cons_ne (c : Char) (l : List Char) (hc : ¬ c = '\\') :
    bsDoubled (c :: l) = bsDoubled l := by
  cases l <;> simp [bsDoubled, hc]

theorem bsDoubled_cons_bs (l : List Char) :
    bsDoubled ('\\' :: '\\' :: l) = bsDoubled l := by
  simp [bsDoubled]

/-- Sanity: backslash doubling always yields a string whose
backslashes come in adjacent pairs, so a lone backslash in an emitted
argument proves the argument was not passed through bsEscape. -/
theorem bsEscapeL_doubled (l : List Char) : bsDoubled (bsEscapeL l) = true := by
  induction l with
  | nil => rfl
  | cons c rest ih =>
    by_cases hc : c = '\\'
    · subst hc
      simp [bsEscapeL, bsDoubled_cons_bs, ih]
    · simp [bsEscapeL, hc, bsDoubled_cons_ne c _ hc, ih]

/-- Claim C3, counterexample: a Remote target whose elevation vector
contains a backslash emits that argument after ssh verbatim, with its
lone backslash intact, so not every argument after ssh has its
backslashes doubled. -/
theorem ssh_elevate_not_escaped_cex :
    prepare_command
      { target := .Remote "h" none (some ["a\\b"]) false, command := "c", args := [],
        working_directory := none, read_only := false }
      = some ("ssh", ["h", "a\\b", "c"]) ∧
    ("a\\b" : String) ≠ bsEscape "a\\b" ∧
    bsDoubled ("a\\b".toList) = false := by
  refine ⟨by rfl, by decide, by rfl⟩

/-- Claim C3 (amended): for a command prepared against a Remote
target and not replaced by dry-run, the emitted argv is ssh followed
by the host, then the elevation vector and the env --chdir prefix
passed verbatim, and only the command and its arguments have each
backslash doubled. -/
theorem ssh_escape_only_command_and_args
    (hostname : String) (user : Option String) (elevate : Option (List String))
    (wd : Option String) (cmd : String) (args : List String) (ro dry : Bool)
    (hdry : dry = false ∨ ro = true) :
    prepare_command
      { target := .Remote hostname user elevate dry, command := cmd, args := args,
        working_directory := wd, read_only := ro }
    = some ("ssh",
        (match user with | some u => u ++ "@" ++ hostname | none => hostname)
          :: elevate.getD []
          ++ (match wd with | some d => ["env", "--chdir", d] | none => [])
          ++ bsEscape cmd :: args.map bsEscape) := by
  rcases hdry with h | h
  · subst h
    cases user <;> cases elevate <;> cases wd <;>
      simp [prepare_command, CommandTarget.dry, Option.getD]
  · subst h
    cases dry <;> cases user <;> cases elevate <;> cases wd <;>
      simp [prepare_command, CommandTarget.dry, Option.getD]

theorem ssh_escape_only_command_and_args_witness :
    prepare_command
      { target := .Remote "h" (some "u") (some ["sudo\\x"]) false, command := "a\\b",
        args := ["x\\y"], working_directory := some "/tmp", read_only := false }
    = some ("ssh",
        ["u@h", "sudo\\x", "env", "--chdir", "/tmp", "a\\\\b", "x\\\\y"]) :=
  ssh_escape_only_command_and_args "h" (some "u") (some ["sudo\\x"]) (some "/tmp")
    "a\\b" ["x\\y"] false false (Or.inl rfl)

/-- Claim C6: against a target with dry set, a command not marked
read-only is replaced by the no-op command true with no arguments,
while a read-only command is prepared exactly as it would be with dry
unset. -/
theorem dry_run_replacement (pc : PreparedCommand) (hdry : pc.target.dry = true) :
    (pc.read_only = false → prepare_command pc = some ("true", [])) ∧
    (pc.read_only = true →
      prepare_command pc = prepare_command { pc with target := pc.target.withDry false }) := by
  obtain ⟨t, c, a, w, r⟩ := pc
  constructor
  · intro hr
    subst hr
    cases t <;> simp_all [prepare_command, CommandTarget.dry]
  · intro hr
    subst hr
    cases t with
    | Local elevate d =>
      cases elevate <;>
        simp_all [prepare_command, CommandTarget.dry, CommandTarget.withDry]
    | Remote hh uu elevate d =>
      simp_all [prepare_command, CommandTarget.dry, CommandTarget.withDry]

theorem dry_run_replacement_witness :
    prepare_command
      { target := .Local none true, command := "systemctl", args := ["start", "s"],
        working_directory := none, read_only := false }
      = some ("true", []) ∧
    prepare_command
      { target := .Local none true, command := "systemctl", args := ["is-active", "s"],
        working_directory := none, read_only := true }
      = prepare_command
        { target := .Local none false, command := "systemctl", args := ["is-active", "s"],
          working_directory := none, read_only := true } :=
  ⟨(dry_run_replacement
      { target := .Local none true, command := "systemctl", args := ["start", "s"],
        working_directory := none, read_only := false } rfl).1 rfl,
   (dry_run_replacement
      { target := .Local none true, command := "systemctl", args := ["is-active", "s"],
        working_directory := none, read_only := true } rfl).2 rfl⟩

/-- Claim C5: a Remote target with a user, a task with become set and
no become_user, and a shell task with cmd id produce exactly the argv
ssh user-at-host sudo --user=root -- /bin/sh -c id. -/
theorem remote_become_argv (h u : String) :
    run_command_argv (.Remote h (some u) none false) (becomeUserFor true none) none
      (shellArgv "id" none)
    = some ("ssh", [u ++ "@" ++ h, "sudo", "--user=root", "--", "/bin/sh", "-c", "id"]) := by
  simp [run_command_argv, becomeUserFor, shellArgv, applyBecome, prepare_command,
    CommandTarget.dry, bsEscape, bsEscapeL]


/-! ## Facts theorems -/


theorem alookup_insertF (m : List (String × Value)) (k q : String) (v : Value) :
    alookup (insertF m k v) q = if q = k then some v else alookup m q := by
  induction m with
  | nil =>
    simp only [insertF, alookup]
    by_cases h2 : k = q
    · rw [if_pos h2, if_pos h2.symm]
    · rw [if_neg h2, if_neg (fun hh => h2 hh.symm)]
  | cons kv rest ih =>
    obtain ⟨a, b⟩ := kv
    by_cases h1 : a = k
    · simp only [insertF, if_pos h1, alookup]
      by_cases h2 : k = q
      · rw [if_pos h2, if_pos h2.symm]
      · rw [if_neg h2, if_neg (fun hh => h2 hh.symm),
          if_neg (fun hh : a = q => h2 (h1.symm.trans hh))]
    · simp only [insertF, if_neg h1, alookup, ih]
      by_cases h2 : a = q
      · rw [if_pos h2, if_pos h2,
          if_neg (fun hh : q = k => h1 (h2.trans hh))]
      · rw [if_neg h2, if_neg h2]

theorem set_fact_cons (m : List (String × Value)) (kv : String × Value)
    (rest : List (String × Value)) :
    set_fact m (kv :: rest) = set_fact (insertF m kv.1 kv.2) rest := rfl

theorem alookup_set_fact (pairs m : List (String × Value)) (q : String) :
    alookup (set_fact m pairs) q
      = match lastVal pairs q with
        | some v => some v
        | none => alookup m q := by
  induction pairs generalizing m with
  | nil => simp [set_fact, lastVal]
  | cons kv rest ih =>
    rw [set_fact_cons, ih]
    cases hrest : lastVal rest q with
    | some v => simp [lastVal, hrest]
    | none =>
      simp only [lastVal, hrest, alookup_insertF]
      by_cases h : kv.1 = q
      · rw [if_pos h.symm, if_pos h]
      · rw [if_neg (fun hh => h hh.symm), if_neg h]

theorem alookup_entryOrInsert (m : List (String × Value)) (k q : String)
    (v w : Value) (hq : alookup m q = some v) :
    alookup (entryOrInsert m k w) q = some v := by
  unfold entryOrInsert
  cases hk : alookup m k with
  | some u => simpa [hk] using hq
  | none =>
    rw [alookup_insertF]
    by_cases h : q = k
    · subst h
      rw [hq] at hk
      exact absurd hk (by simp)
    · simpa [h] using hq

theorem alookup_loadRoleDefaults (ds m : List (String × Value)) (q : String)
    (v : Value) (hq : alookup m q = some v) :
    alookup (loadRoleDefaults m ds) q = some v := by
  induction ds generalizing m with
  | nil => simpa [loadRoleDefaults] using hq
  | cons kv rest ih =>
    have hstep : loadRoleDefaults m (kv :: rest)
        = loadRoleDefaults (entryOrInsert m kv.1 kv.2) rest := rfl
    rw [hstep]
    exact ih _ (alookup_entryOrInsert m kv.1 q v kv.2 hq)

theorem lastVal_of_not_mem (pairs : List (String × Value)) (k : String)
    (h : k ∉ pairs.map Prod.fst) : lastVal pairs k = none := by
  induction pairs with
  | nil => rfl
  | cons kv rest ih =>
    simp only [List.map_cons, List.mem_cons] at h
    push_neg at h
    simp only [lastVal, ih h.2]
    rw [if_neg (fun hh => h.1 hh.symm)]

theorem lastVal_of_mem_nodup (pairs : List (String × Value)) (k : String) (v : Value)
    (hnd : (pairs.map Prod.fst).Nodup) (hm : (k, v) ∈ pairs) :
    lastVal pairs k = some v := by
  induction pairs with
  | nil => cases hm
  | cons kv rest ih =>
    simp only [List.map_cons, List.nodup_cons] at hnd
    rcases List.mem_cons.mp hm with h | h
    · subst h
      simp [lastVal, lastVal_of_not_mem rest k hnd.1]
    · simp [lastVal, ih hnd.2 h]

/-- Claim C7: loading role defaults inserts a fact only when its key
is absent (an existing fact is never overwritten), set_fact always
stores the notified value for each of its keys, and re-invoking
set_fact with identical inputs leaves the facts mapping unchanged. -/
theorem facts_role_defaults_and_set_fact
    (facts ds pairs : List (String × Value)) (k : String) :
    (∀ v, alookup facts k = some v → alookup (loadRoleDefaults facts ds) k = some v) ∧
    (∀ v2, (pairs.map Prod.fst).Nodup → (k, v2) ∈ pairs →
      alookup (set_fact facts pairs) k = some v2) ∧
    (∀ q, alookup (set_fact (set_fact facts pairs) pairs) q
      = alookup (set_fact facts pairs) q) := by
  refine ⟨fun v hv => alookup_loadRoleDefaults ds facts k v hv, ?_, ?_⟩
  · intro v2 hnd hm
    rw [alookup_set_fact, lastVal_of_mem_nodup pairs k v2 hnd hm]
  · intro q
    rw [alookup_set_fact, alookup_set_fact]
    cases h : lastVal pairs q with
    | some v => simp
    | none => simp [alookup_set_fact, h]

theorem facts_role_defaults_and_set_fact_witness :
    alookup (loadRoleDefaults [("a", Value.vStr "z")]
      [("a", Value.vStr "d"), ("b", Value.vStr "e")]) "a" = some (Value.vStr "z") ∧
    alookup (set_fact [("a", Value.vStr "z")] [("a", Value.vStr "y")]) "a"
      = some (Value.vStr "y") ∧
    alookup (set_fact (set_fact [("a", Value.vStr "z")] [("a", Value.vStr "y")])
        [("a", Value.vStr "y")]) "a"
      = alookup (set_fact [("a", Value.vStr "z")] [("a", Value.vStr "y")]) "a" :=
  ⟨(facts_role_defaults_and_set_fact [("a", Value.vStr "z")]
      [("a", Value.vStr "d"), ("b", Value.vStr "e")] [("a", Value.vStr "y")] "a").1
      (Value.vStr "z") rfl,
   (facts_role_defaults_and_set_fact [("a", Value.vStr "z")]
      [("a", Value.vStr "d"), ("b", Value.vStr "e")] [("a", Value.vStr "y")] "a").2.1
      (Value.vStr "y") (by simp) (by simp),
   (facts_role_defaults_and_set_fact [("a", Value.vStr "z")]
      [("a", Value.vStr "d"), ("b", Value.vStr "e")] [("a", Value.vStr "y")] "a").2.2 "a"⟩


/-! ## Parser, resolver and meta theorems -/


def noopRun : ModuleRun := fun _ _ c => .ok c

def emptyCtx : Ctx :=
  { play_basedir := "", resource_dirs := [], facts := [],
    command_target := .Local none false, do_become_user := none,
    pending_handlers := [], known_handlers := [] }

/-- Claim C2: a YAML mapping with no key recognised as a registered
module does not fail with a parse error: the construction at the end
of visit_map calls task_id.unwrap() on None and panics, for the task
parser and the handler parser alike. This theorem evaluates the
parser at the failing input, exhibiting the abnormal termination the
claim rules out. -/
theorem missing_module_key_panics :
    visit_map false [("name", Value.vStr "x")] = .panic ∧
    visit_map true [("name", Value.vStr "x")] = .panic :=
  ⟨rfl, rfl⟩

/-- Claim C4: with play_basedir /p, role resource directory
/p/roles/r, and hello.txt present both at /p/roles/r/files/hello.txt
and /p/hello.txt, resolving src hello.txt for the copy module yields
/p/roles/r/files/hello.txt: the role files directory wins. -/
theorem role_files_dir_wins :
    resolve_local_file
      (fun p => p == "/p/roles/r/files/hello.txt" || p == "/p/hello.txt")
      { emptyCtx with play_basedir := "/p", resource_dirs := ["/p/roles/r"] }
      "files" "hello.txt"
    = .ok "/p/roles/r/files/hello.txt" := by
  rfl

theorem parseMetaAction_not_vStr (v : Value) (h : ∀ s, v ≠ .vStr s) :
    parseMetaAction v = .Unknown v := by
  cases v with
  | vStr s => exact absurd rfl (h s)
  | vNull => rfl
  | vBool b => rfl
  | vInt n => rfl
  | vSeq l => rfl
  | vMap l => rfl

theorem parseMetaAction_unrecognised (s : String) (h : s ∉ recognisedMetaNames) :
    parseMetaAction (.vStr s) = .Unknown (.vStr s) := by
  simp only [recognisedMetaNames, metaActionTable, List.map_cons, List.map_nil,
    List.mem_cons, List.not_mem_nil, or_false] at h
  push_neg at h
  obtain ⟨h1, h2, h3, h4, h5, h6, h7, h8, h9⟩ := h
  simp [parseMetaAction, metaActionTable, alookup,
    Ne.symm h1, Ne.symm h2, Ne.symm h3, Ne.symm h4, Ne.symm h5,
    Ne.symm h6, Ne.symm h7, Ne.symm h8, Ne.symm h9]

/-- Claim C9, counterexample: the string action bogus is not one of
the nine recognised names, deserialises into the untagged Unknown
variant, and run_structured returns a fatal error even though the
action is a string. -/
theorem meta_unknown_string_fatal_cex :
    parseMetaAction (.vStr "bogus") = .Unknown (.vStr "bogus") ∧
    metaRunStructured noopRun (parseMetaAction (.vStr "bogus")) emptyCtx
      = .error metaUnknownMsg :=
  ⟨rfl, rfl⟩

/-- Claim C9 (amended): a string action among the recognised
unit-variant names without an implementation (clear_facts,
clear_host_errors, end_batch, end_host, end_play, refresh_inventory)
is warn-logged and the task succeeds; any value deserialising to the
untagged Unknown variant, be it a non-string or a string outside the
nine recognised names, is a fatal error. -/
theorem meta_action_dispositions (runM : ModuleRun) (ctx : Ctx) (s : String) (v : Value) :
    (s ∈ warnOnlyMetaNames →
      metaRunStructured runM (parseMetaAction (.vStr s)) ctx = .ok (ctx, true)) ∧
    ((∀ s2, v ≠ .vStr s2) →
      metaRunStructured runM (parseMetaAction v) ctx = .error metaUnknownMsg) ∧
    (s ∉ recognisedMetaNames →
      metaRunStructured runM (parseMetaAction (.vStr s)) ctx = .error metaUnknownMsg) := by
  refine ⟨?_, ?_, ?_⟩
  · intro hs
    simp only [warnOnlyMetaNames, List.mem_cons, List.not_mem_nil, or_false] at hs
    rcases hs with rfl | rfl | rfl | rfl | rfl | rfl <;> rfl
  · intro hv
    rw [parseMetaAction_not_vStr v hv]
    rfl
  · intro hs
    rw [parseMetaAction_unrecognised s hs]
    rfl

theorem meta_action_dispositions_witness :
    metaRunStructured noopRun (parseMetaAction (.vStr "end_play")) emptyCtx
      = .ok (emptyCtx, true) ∧
    metaRunStructured noopRun (parseMetaAction (.vNull)) emptyCtx
      = .error metaUnknownMsg ∧
    metaRunStructured noopRun (parseMetaAction (.vStr "wibble")) emptyCtx
      = .error metaUnknownMsg :=
  ⟨(meta_action_dispositions noopRun emptyCtx "end_play" .vNull).1 (by decide),
   (meta_action_dispositions noopRun emptyCtx "end_play" .vNull).2.1
     (fun s2 => Value.noConfusion),
   (meta_action_dispositions noopRun emptyCtx "wibble" .vNull).2.2 (by decide)⟩


/-! ## Orchestrator theorems: handler flush, notify, elevation frame -/


theorem runHandlersLoop_trace (runM : ModuleRun) (names : List String) :
    ∀ (ctx : Ctx) (acc : List String) (ctx2 : Ctx) (trace : List String),
      runHandlersLoop runM names ctx acc = .ok (ctx2, trace) →
      trace = acc.reverse ++ names := by
  induction names with
  | nil =>
    intro ctx acc ctx2 trace h
    simp only [runHandlersLoop] at h
    cases h
    simp
  | cons hname rest ih =>
    intro ctx acc ctx2 trace h
    simp only [runHandlersLoop] at h
    split at h
    · exact Outcome.noConfusion h
    · split at h
      · exact Outcome.noConfusion h
      · split at h
        · have := ih _ (hname :: acc) ctx2 trace h
          simpa using this
        · exact Outcome.noConfusion h
        · exact Outcome.noConfusion h

/-- Claim C1 (amended): on a successful flush the dispatch sequence is
exactly the pending queue snapshot, so a handler fires once for every
occurrence of its name pushed before the flush, and the queue is
cleared afterwards (discarding notifications made during the flush). -/
theorem flush_trace_eq_pending (runM : ModuleRun) (ctx ctx2 : Ctx) (trace : List String)
    (h : run_handlers runM ctx = .ok (ctx2, trace)) :
    trace = ctx.pending_handlers ∧ ctx2.pending_handlers = [] ∧
    ∀ n, trace.count n = ctx.pending_handlers.count n := by
  simp only [run_handlers] at h
  by_cases hp : ctx.pending_handlers.isEmpty
  · rw [if_pos hp] at h
    cases h
    refine ⟨?_, ?_, ?_⟩
    · exact (List.isEmpty_iff.mp hp).symm
    · exact List.isEmpty_iff.mp hp
    · intro n; rw [List.isEmpty_iff.mp hp]
  · rw [if_neg hp] at h
    cases hl : runHandlersLoop runM ctx.pending_handlers ctx [] with
    | ok p =>
      obtain ⟨c2, t⟩ := p
      rw [hl] at h
      change Outcome.ok ({ c2 with pending_handlers := [] }, t)
        = Outcome.ok (ctx2, trace) at h
      injection h with h2
      injection h2 with h3 h4
      subst h3
      subst h4
      have := runHandlersLoop_trace runM ctx.pending_handlers ctx [] c2 t hl
      simp only [List.reverse_nil, List.nil_append] at this
      exact ⟨this, rfl, fun n => by rw [this]⟩
    | error e =>
      rw [hl] at h
      exact Outcome.noConfusion h
    | panic =>
      rw [hl] at h
      exact Outcome.noConfusion h

def hShell : HandlerDescription :=
  { name := some "H", task_id := .Task "ansible.builtin.shell", args := .vNull,
    become := false, become_user := none, when := [], listen := none, vars := none }

/-- A module run that counts its invocations in the facts table. -/
def countingRun : ModuleRun := fun _ _ c =>
  let bumped : Value :=
    match alookup c.facts "count" with
    | some (.vInt n) => .vInt (n + 1)
    | _ => .vInt 1
  .ok { c with facts := insertF c.facts "count" bumped }

def ctxTwice : Ctx :=
  { play_basedir := "", resource_dirs := [], facts := [],
    command_target := .Local none false, do_become_user := none,
    pending_handlers := ["H", "H"], known_handlers := [("H", hShell)] }

def ctxTwiceAfter : Ctx :=
  { play_basedir := "", resource_dirs := [], facts := [("count", .vInt 2)],
    command_target := .Local none false, do_become_user := none,
    pending_handlers := [], known_handlers := [("H", hShell)] }

/-- Claim C1, counterexample: the handler name H queued twice before
the flush dispatches its module twice (the invocation counter reaches
two and the trace lists H twice), so a handler does not fire at most
once per flush batch. -/
theorem handler_fires_per_occurrence_cex :
    run_handlers countingRun ctxTwice = .ok (ctxTwiceAfter, ["H", "H"]) ∧
    List.count "H" ["H", "H"] = 2 := by
  refine ⟨by rfl, by decide⟩

theorem flush_trace_eq_pending_witness :
    (["H", "H"] : List String) = ctxTwice.pending_handlers ∧
    ctxTwiceAfter.pending_handlers = [] ∧
    List.count "H" (["H", "H"] : List String)
      = List.count "H" ctxTwice.pending_handlers := by
  obtain ⟨h1, h2, h3⟩ :=
    flush_trace_eq_pending countingRun ctxTwice ctxTwiceAfter ["H", "H"] (by rfl)
  exact ⟨h1, h2, h3 "H"⟩



/-- Claim C8: a task may notify a name missing from known_handlers
and still succeed (the push is unvalidated), and the subsequent flush
fails with the resolution error naming that handler. -/
theorem unknown_handler_flush_fails (runM : ModuleRun) (ctx cAfter : Ctx)
    (t : TaskDescription) (tid : TaskId)
    (hreg : knownTasksLookup t.task_id.name = some tid)
    (hrun : runM tid.name t.args
      { ctx with do_become_user := becomeUserFor t.become t.become_user } = .ok cAfter)
    (hn : t.notify = ["does-not-exist"])
    (hq : cAfter.pending_handlers = [])
    (hk : alookup cAfter.known_handlers "does-not-exist" = none) :
    processTask runM ctx t
      = .ok { cAfter with pending_handlers := ["does-not-exist"] } ∧
    run_handlers runM { cAfter with pending_handlers := ["does-not-exist"] }
      = .error (handlerNotDeclaredMsg "does-not-exist") ∧
    handlerNotDeclaredMsg "does-not-exist"
      = "Handler " ++ "does-not-exist" ++ " is not declared" := by
  refine ⟨?_, ?_, rfl⟩
  · simp [processTask, hreg, hrun, hn, hq]
  · simp [run_handlers, runHandlersLoop, hk]

def tShell : TaskDescription :=
  { name := none, task_id := .Task "ansible.builtin.shell", args := .vNull,
    become := false, become_user := none, delegate_to := none, when := [],
    notify := ["does-not-exist"], register := none, vars := none }

theorem unknown_handler_flush_fails_witness :
    processTask noopRun emptyCtx tShell
      = .ok { emptyCtx with pending_handlers := ["does-not-exist"] } ∧
    run_handlers noopRun { emptyCtx with pending_handlers := ["does-not-exist"] }
      = .error (handlerNotDeclaredMsg "does-not-exist") ∧
    handlerNotDeclaredMsg "does-not-exist"
      = "Handler " ++ "does-not-exist" ++ " is not declared" :=
  unknown_handler_flush_fails noopRun emptyCtx emptyCtx tShell
    (.Task "ansible.builtin.shell") rfl rfl rfl rfl rfl

/-- run_handlers reads only the task_id and args of a stored handler:
this map rewrites the become fields of every known handler. -/
def setBecomeFields (b : Bool) (u : Option String) (h : HandlerDescription) :
    HandlerDescription :=
  { h with become := b, become_user := u }

def mapKnown (g : HandlerDescription → HandlerDescription) (c : Ctx) : Ctx :=
  { c with known_handlers := c.known_handlers.map (fun kh => (kh.1, g kh.2)) }

theorem alookup_map_value {A B : Type} (g : A → B) (l : List (String × A)) (k : String) :
    alookup (l.map (fun kh => (kh.1, g kh.2))) k = (alookup l k).map g := by
  induction l with
  | nil => rfl
  | cons kv rest ih =>
    by_cases h : kv.1 = k <;> simp [alookup, h, ih]

theorem runHandlersLoop_mapKnown (runM : ModuleRun) (b : Bool) (u : Option String)
    (hequi : ∀ n a c, runM n a (mapKnown (setBecomeFields b u) c)
      = Outcome.map (mapKnown (setBecomeFields b u)) (runM n a c)) (names : List String) :
    ∀ (ctx : Ctx) (acc : List String),
      runHandlersLoop runM names (mapKnown (setBecomeFields b u) ctx) acc
        = Outcome.map (fun p => (mapKnown (setBecomeFields b u) p.1, p.2))
            (runHandlersLoop runM names ctx acc) := by
  induction names with
  | nil => intro ctx acc; rfl
  | cons hname rest ih =>
    intro ctx acc
    simp only [runHandlersLoop]
    have hlk : alookup (mapKnown (setBecomeFields b u) ctx).known_handlers hname
        = (alookup ctx.known_handlers hname).map (setBecomeFields b u) :=
      alookup_map_value (setBecomeFields b u) ctx.known_handlers hname
    rw [hlk]
    cases hl : alookup ctx.known_handlers hname with
    | none => rfl
    | some handler =>
      simp only [Option.map_some']
      have htid : (setBecomeFields b u handler).task_id = handler.task_id := rfl
      rw [htid]
      cases ht : knownTasksLookup handler.task_id.name with
      | none => rfl
      | some tid =>
        dsimp only
        have hargs : (setBecomeFields b u handler).args = handler.args := rfl
        rw [hargs, hequi tid.name handler.args ctx]
        cases hr : runM tid.name handler.args ctx with
        | ok c2 => simpa [Outcome.map] using ih c2 (hname :: acc)
        | error e => rfl
        | panic => rfl

theorem runHandlersLoop_preserves_become (runM : ModuleRun)
    (hpres : ∀ n a c c2, runM n a c = .ok c2 → c2.do_become_user = c.do_become_user)
    (names : List String) :
    ∀ (ctx : Ctx) (acc : List String) (ctx2 : Ctx) (trace : List String),
      runHandlersLoop runM names ctx acc = .ok (ctx2, trace) →
      ctx2.do_become_user = ctx.do_become_user := by
  induction names with
  | nil =>
    intro ctx acc ctx2 trace h
    simp only [runHandlersLoop] at h
    cases h
    rfl
  | cons hname rest ih =>
    intro ctx acc ctx2 trace h
    simp only [runHandlersLoop] at h
    split at h
    · exact Outcome.noConfusion h
    · split at h
      · exact Outcome.noConfusion h
      · split at h
        · rename_i c2 hr
          exact (ih c2 (hname :: acc) ctx2 trace h).trans (hpres _ _ _ _ hr)
        · exact Outcome.noConfusion h
        · exact Outcome.noConfusion h

/-- Claim C10: a flush dispatches a handler through only its module
entry point and captured args: rewriting the become and become_user
fields of every known handler changes nothing in the flush except
those stored fields, and when the dispatched modules preserve
do_become_user the flush leaves it exactly as the most recently
executed task set it. -/
theorem flush_ignores_handler_become (runM : ModuleRun) (b : Bool) (u : Option String)
    (hequi : ∀ n a c, runM n a (mapKnown (setBecomeFields b u) c)
      = Outcome.map (mapKnown (setBecomeFields b u)) (runM n a c))
    (hpres : ∀ n a c c2, runM n a c = .ok c2 → c2.do_become_user = c.do_become_user)
    (ctx : Ctx) :
    run_handlers runM (mapKnown (setBecomeFields b u) ctx)
      = Outcome.map (fun p => (mapKnown (setBecomeFields b u) p.1, p.2))
          (run_handlers runM ctx) ∧
    (∀ c2 trace, run_handlers runM ctx = .ok (c2, trace) →
      c2.do_become_user = ctx.do_become_user) := by
  constructor
  · simp only [run_handlers]
    have hpend : (mapKnown (setBecomeFields b u) ctx).pending_handlers
        = ctx.pending_handlers := rfl
    rw [hpend]
    by_cases hp : ctx.pending_handlers.isEmpty
    · rw [if_pos hp, if_pos hp]
      rfl
    · rw [if_neg hp, if_neg hp,
        runHandlersLoop_mapKnown runM b u hequi ctx.pending_handlers ctx []]
      cases hl : runHandlersLoop runM ctx.pending_handlers ctx [] with
      | ok p => obtain ⟨c2, t⟩ := p; rfl
      | error e => rfl
      | panic => rfl
  · intro c2 trace h
    simp only [run_handlers] at h
    by_cases hp : ctx.pending_handlers.isEmpty
    · rw [if_pos hp] at h
      cases h
      rfl
    · rw [if_neg hp] at h
      cases hl : runHandlersLoop runM ctx.pending_handlers ctx [] with
      | ok p =>
        obtain ⟨cc, t⟩ := p
        rw [hl] at h
        change Outcome.ok ({ cc with pending_handlers := [] }, t)
          = Outcome.ok (c2, trace) at h
        injection h with h2
        injection h2 with h3 h4
        subst h3
        exact runHandlersLoop_preserves_become runM hpres ctx.pending_handlers
          ctx [] cc t hl
      | error e => rw [hl] at h; exact Outcome.noConfusion h
      | panic => rw [hl] at h; exact Outcome.noConfusion h

def hBecome : HandlerDescription :=
  { name := some "H", task_id := .Task "ansible.builtin.shell", args := .vNull,
    become := true, become_user := some "bob", when := [], listen := none, vars := none }

def ctxBecome : Ctx :=
  { play_basedir := "", resource_dirs := [], facts := [],
    command_target := .Local none false, do_become_user := some "alice",
    pending_handlers := ["H"], known_handlers := [("H", hBecome)] }

def ctxBecomeAfter : Ctx := { ctxBecome with pending_handlers := [] }

theorem flush_ignores_handler_become_witness :
    run_handlers noopRun (mapKnown (setBecomeFields false none) ctxBecome)
      = Outcome.map (fun p => (mapKnown (setBecomeFields false none) p.1, p.2))
          (run_handlers noopRun ctxBecome) ∧
    ctxBecomeAfter.do_become_user = ctxBecome.do_become_user := by
  have h := flush_ignores_handler_become noopRun false none
    (fun n a c => rfl)
    (fun n a c c2 hh => by cases hh; rfl)
    ctxBecome
  exact ⟨h.1, h.2 ctxBecomeAfter ["H"] (by rfl)⟩

end Kerosene
